import Mathlib

/-!
Verification of the client-side timeline-reconstruction and synchronized
playback core of the volcano-tts-agent frontend
(src/frontend/src/pages/TTSAgent/components/ResultPanel.tsx).

The TypeScript source is shallowly embedded: JavaScript numbers are modelled
as exact rationals, optional fields as `Option`, and the asynchronous
playback handlers as explicit state-transition functions on a record of the
component's state variables and audio-element flags.
-/

namespace TTSAgent

/-- Dialogue item data model (types.ts, `DialogueItem`). `duration_ms` is the
optional measured duration in milliseconds. -/
structure DialogueItem where
  id : Option Nat := none
  index : Nat := 0
  character : String := ""
  character_desc : Option String := none
  text : String := ""
  instruction : Option String := none
  context : Option String := none
  audio_path : Option String := none
  duration_ms : Option ℚ := none
deriving DecidableEq, Repr

/-- A `[start, end)` time range inside the merged track (ResultPanel.tsx,
`TimeRange`). The source field `end` is a Lean keyword, so it is named
`stop` here. -/
structure TimeRange where
  start : ℚ
  stop : ℚ
deriving DecidableEq, Repr

/-- The per-item duration selection inside the `timeRanges` memo
(ResultPanel.tsx line 222-224):
`loadedDurations[i] || (dialogue.duration_ms ? dialogue.duration_ms / 1000 : 2)`.
A missing entry is JavaScript `undefined` and a `0` entry is falsy, so both
fall through to the stored duration; a missing or `0` (falsy) `duration_ms`
falls through to the default of 2 seconds. -/
def itemDurationSec (loadedDurations : List ℚ) (i : Nat) (dialogue : DialogueItem) : ℚ :=
  match loadedDurations.get? i with
  | some v =>
      if v = 0 then
        match dialogue.duration_ms with
        | some ms => if ms = 0 then 2 else ms / 1000
        | none => 2
      else v
  | none =>
      match dialogue.duration_ms with
      | some ms => if ms = 0 then 2 else ms / 1000
      | none => 2

/-- The map-with-index `dialogues.map((dialogue, i) => ...)` of
ResultPanel.tsx line 222-224, written as an index-carrying recursion. -/
def itemDurationsSecFrom (loadedDurations : List ℚ) : Nat → List DialogueItem → List ℚ
  | _, [] => []
  | i, dialogue :: rest =>
      itemDurationSec loadedDurations i dialogue ::
        itemDurationsSecFrom loadedDurations (i + 1) rest

/-- The `itemDurationsSec` constant of the `timeRanges` memo. -/
def itemDurationsSec (dialogues : List DialogueItem) (loadedDurations : List ℚ) : List ℚ :=
  itemDurationsSecFrom loadedDurations 0 dialogues

/-- Inferred inter-clip gap (ResultPanel.tsx line 227-230), with
`DEFAULT_GAP_SEC = 0.5`. -/
def inferredGapSec (n : Nat) (duration totalItemsSec : ℚ) : ℚ :=
  if 0 < duration ∧ 1 < n then max ((duration - totalItemsSec) / ((n : ℚ) - 1)) 0
  else 1 / 2

/-- Base (unscaled) total length (ResultPanel.tsx line 232). -/
def baseTotalSec (n : Nat) (totalItemsSec gap : ℚ) : ℚ :=
  totalItemsSec + gap * max ((n : ℚ) - 1) 0

/-- Rescaling factor (ResultPanel.tsx line 233). -/
def scaleFactor (duration baseTotal : ℚ) : ℚ :=
  if 0 < duration ∧ 0 < baseTotal then duration / baseTotal else 1

/-- The cursor walk of the `timeRanges` memo (ResultPanel.tsx line 235-247):
each item contributes `[cursor, cursor + d*scale)` and the cursor advances by
`d*scale`, plus `gap*scale` when the item is not the last one. -/
def buildRanges (gap scale : ℚ) : List ℚ → ℚ → List TimeRange
  | [], _ => []
  | [d], cursor => [⟨cursor, cursor + d * scale⟩]
  | d :: d2 :: rest, cursor =>
      ⟨cursor, cursor + d * scale⟩ ::
        buildRanges gap scale (d2 :: rest) (cursor + d * scale + gap * scale)

/-- The `timeRanges` memo (ResultPanel.tsx line 218-250): per-dialogue time
ranges inside the merged audio, as a pure function of the dialogue list, the
probed durations and the merged track duration. -/
def timeRanges (dialogues : List DialogueItem) (loadedDurations : List ℚ)
    (duration : ℚ) : List TimeRange :=
  let ds := itemDurationsSec dialogues loadedDurations
  let gap := inferredGapSec dialogues.length duration ds.sum
  buildRanges gap (scaleFactor duration (baseTotalSec dialogues.length ds.sum gap)) ds 0

/-- Result record of `findCurrentDialogueIndex`. -/
structure DialogueIndexResult where
  index : Option Nat
  progress : ℚ
deriving DecidableEq, Repr

/-- The scanning loop of `findCurrentDialogueIndex` (ResultPanel.tsx line
254-261): the first range with `start <= time < end` wins; the progress is
`(time - start) / (end - start)`, or `0` when the segment length is not
positive. -/
def findLoop (time : ℚ) : List TimeRange → Nat → Option (Nat × ℚ)
  | [], _ => none
  | r :: rest, i =>
      if r.start ≤ time ∧ time < r.stop then
        some (i, if 0 < r.stop - r.start then (time - r.start) / (r.stop - r.start) else 0)
      else findLoop time rest (i + 1)

/-- The playback position mapper `findCurrentDialogueIndex`
(ResultPanel.tsx line 253-267): scan for a containing range; otherwise, if
the list is nonempty and `time` is at or past the last range's start, report
the last index with progress 1; otherwise no active index. -/
def findCurrentDialogueIndex (ranges : List TimeRange) (time : ℚ) : DialogueIndexResult :=
  match findLoop time ranges 0 with
  | some (i, p) => ⟨some i, p⟩
  | none =>
      match ranges.getLast? with
      | some lastRange =>
          if lastRange.start ≤ time then ⟨some (ranges.length - 1), 1⟩ else ⟨none, 0⟩
      | none => ⟨none, 0⟩

/-- Three dialogue items with no stored durations, used by the concrete
scenarios of the specification. -/
def exDialogues3 : List DialogueItem :=
  [{ index := 0, character := "A", text := "a" },
   { index := 1, character := "B", text := "b" },
   { index := 2, character := "C", text := "c" }]

example : itemDurationsSec exDialogues3 [2, 3, 1] = [2, 3, 1] := by
  norm_num [itemDurationsSec, itemDurationsSecFrom, itemDurationSec, exDialogues3]
example : timeRanges exDialogues3 [2, 3, 1] 8 = [⟨0, 2⟩, ⟨3, 6⟩, ⟨7, 8⟩] := by
  norm_num [timeRanges, itemDurationsSec, itemDurationsSecFrom, itemDurationSec,
    exDialogues3, inferredGapSec, baseTotalSec, scaleFactor, buildRanges]
example : timeRanges exDialogues3 [2, 3, 1] 0 = [⟨0, 2⟩, ⟨5/2, 11/2⟩, ⟨6, 7⟩] := by
  norm_num [timeRanges, itemDurationsSec, itemDurationsSecFrom, itemDurationSec,
    exDialogues3, inferredGapSec, baseTotalSec, scaleFactor, buildRanges]
example : findCurrentDialogueIndex [⟨0, 2⟩, ⟨3, 6⟩, ⟨7, 8⟩] (9/2) = ⟨some 1, 1/2⟩ := by
  norm_num [findCurrentDialogueIndex, findLoop]
example : findCurrentDialogueIndex [⟨0, 2⟩, ⟨3, 6⟩, ⟨7, 8⟩] 9 = ⟨some 2, 1⟩ := by
  norm_num [findCurrentDialogueIndex, findLoop]
example : findCurrentDialogueIndex [⟨0, 2⟩, ⟨3, 6⟩, ⟨7, 8⟩] (5/2) = ⟨none, 0⟩ := by
  norm_num [findCurrentDialogueIndex, findLoop]

/-! ## Specification-side Timeline Reconstructor

For the refinement claim about the Timeline Reconstructor, a second
definition follows the specification's words: per-item duration taken from
the prober's estimate when present, else the stored `duration_ms / 1000`,
else 2 seconds; then the gap, baseTotal, scale and cursor walk of the
specification's steps 1-5. -/

/-- Specification wording for d[i]: the prober's estimate for item i when one
is available, otherwise the stored `duration_ms / 1000`, otherwise 2. -/
def specItemDuration (estimates : List ℚ) (i : Nat) (dialogue : DialogueItem) : ℚ :=
  match estimates.get? i with
  | some v => v
  | none =>
      match dialogue.duration_ms with
      | some ms => ms / 1000
      | none => 2

def specItemDurationsFrom (estimates : List ℚ) : Nat → List DialogueItem → List ℚ
  | _, [] => []
  | i, dialogue :: rest =>
      specItemDuration estimates i dialogue :: specItemDurationsFrom estimates (i + 1) rest

/-- Specification step 5: walk items in order, accumulating a cursor starting
at 0; `range[i] = [cursor, cursor + d[i] * scale)`; advance the cursor by
`d[i] * scale`, then by `g * scale` if not the last item. -/
def specWalk (g scale : ℚ) : List ℚ → ℚ → List TimeRange
  | [], _ => []
  | [d], cursor => [⟨cursor, cursor + d * scale⟩]
  | d :: d2 :: rest, cursor =>
      ⟨cursor, cursor + d * scale⟩ ::
        specWalk g scale (d2 :: rest) (cursor + d * scale + g * scale)

/-- The Timeline Reconstructor exactly as the claim words it (steps 1-5 of
the specification, with d[i] taken from the prober's estimate whenever the
estimate list has an entry for i). -/
def timeRangesSpec (dialogues : List DialogueItem) (estimates : List ℚ) (D : ℚ) :
    List TimeRange :=
  let ds := specItemDurationsFrom estimates 0 dialogues
  let n := dialogues.length
  let g := if 0 < D ∧ 1 < n then max ((D - ds.sum) / ((n : ℚ) - 1)) 0 else 1 / 2
  let baseTotal := ds.sum + g * max ((n : ℚ) - 1) 0
  let scale := if 0 < D ∧ 0 < baseTotal then D / baseTotal else 1
  specWalk g scale ds 0

/-- The Timeline Reconstructor as the claim words it, amended only in the
duration selection: a present-but-zero (falsy) estimate and a
present-but-zero (falsy) `duration_ms` also fall through to the next
fallback, matching the JavaScript `||` and ternary tests. -/
def timeRangesSpecAmended (dialogues : List DialogueItem) (estimates : List ℚ) (D : ℚ) :
    List TimeRange :=
  let ds := itemDurationsSecFrom estimates 0 dialogues
  let n := dialogues.length
  let g := if 0 < D ∧ 1 < n then max ((D - ds.sum) / ((n : ℚ) - 1)) 0 else 1 / 2
  let baseTotal := ds.sum + g * max ((n : ℚ) - 1) 0
  let scale := if 0 < D ∧ 0 < baseTotal then D / baseTotal else 1
  specWalk g scale ds 0

/-! ## Duration Prober

`getDurationForUrl` (ResultPanel.tsx line 143-196) races four ways of
settling the per-URL promise: the `loadedmetadata` listener resolving
`audio.duration || 2`, the `error` listener, the abort listener and the
8-second timer, all resolving 2; the `catch` of the fetch block also settles
2. The `settled` flag makes the first event win and later events no-ops.
The model represents a probe run by the sequence of settle events in the
order they fire. -/

inductive ProbeEvent
  /-- the `loadedmetadata` listener fired with the element reporting the
  given duration -/
  | loadedMetadata (d : ℚ)
  /-- the `error` listener fired -/
  | mediaError
  /-- the shared abort signal fired -/
  | abortSignal
  /-- the 8-second timer fired -/
  | timeout8s
  /-- the authenticated blob fetch threw and the `catch` block ran -/
  | fetchError
deriving DecidableEq, Repr

/-- The value the corresponding handler passes through `settle`; `settle`
resolves `value || 2`, and `onLoadedMetadata` passes `audio.duration || 2`,
so a zero (falsy) reported duration becomes 2 and every non-metadata event
yields 2. -/
def settleValue : ProbeEvent → ℚ
  | .loadedMetadata d => if d = 0 then 2 else d
  | _ => 2

/-- The `settled` guard: events are processed in order, and only the first
one resolves the promise. -/
def runSettle : List ProbeEvent → Option ℚ → Option ℚ
  | [], acc => acc
  | e :: rest, acc =>
      runSettle rest (match acc with | some v => some v | none => some (settleValue e))

/-- The duration `getDurationForUrl` resolves with, given the settle events
of the probe in firing order (the 8-second timer guarantees at least one
event; an empty trace is read as the timer default). -/
def getDurationForUrl (events : List ProbeEvent) : ℚ :=
  (runSettle events none).getD 2

/-- Cancellation flag of the probing effect (ResultPanel.tsx line 198-215):
`cancelAt = some k` means the effect cleanup set `cancelled` after `k` probes
had completed; `none` means it never ran. -/
def probeCancelled (cancelAt : Option Nat) (j : Nat) : Bool :=
  match cancelAt with
  | some k => k ≤ j
  | none => false

/-- The sequential probe loop (ResultPanel.tsx line 198-209): before probe
number `j` the loop returns early when `cancelled`; after the last probe,
`setLoadedDurations` is called only when still not cancelled. `none` means
no duration list was ever emitted. -/
def probeLoopAux (cancelAt : Option Nat) :
    List (List ProbeEvent) → Nat → List ℚ → Option (List ℚ)
  | [], j, acc => if probeCancelled cancelAt j then none else some acc.reverse
  | evs :: rest, j, acc =>
      if probeCancelled cancelAt j then none
      else probeLoopAux cancelAt rest (j + 1) (getDurationForUrl evs :: acc)

/-- The whole duration-probing effect: one settle-event trace per URL, and
the point (if any) at which the batch was cancelled. -/
def probeLoop (eventsPerUrl : List (List ProbeEvent)) (cancelAt : Option Nat) :
    Option (List ℚ) :=
  probeLoopAux cancelAt eventsPerUrl 0 []

example : probeLoop [[.loadedMetadata 3], [.mediaError]] none = some [3, 2] := by
  norm_num [probeLoop, probeLoopAux, probeCancelled, getDurationForUrl, runSettle, settleValue]
example : probeLoop [[.loadedMetadata 3], [.mediaError]] (some 1) = none := by
  norm_num [probeLoop, probeLoopAux, probeCancelled, getDurationForUrl, runSettle, settleValue]

/-- Count of object URLs created and revoked by one `getDurationForUrl` call. -/
structure ProbeResources where
  created : Nat
  revoked : Nat
deriving DecidableEq, Repr

/-- Object-URL lifecycle of `getDurationForUrl` (ResultPanel.tsx line
143-196). The local `objectUrl` starts `null`; when the URL needs the
Authorization header, the async block fetches the blob and, if the fetch
resolves, calls `URL.createObjectURL`; after the settle promise resolves,
`if (objectUrl) URL.revokeObjectURL(objectUrl)` runs exactly once. The
schedule parameters say whether the fetch was attempted (`needsAuth`),
whether it resolved with a blob (`fetchSucceeds`), and whether it resolved
before the settle promise did (`fetchBeforeSettle`); when the fetch resolves
after settling (for example the 8-second timer fired first), the revoke
check has already seen `null` and the URL created afterwards is never
revoked. -/
def getDurationObjectUrls (needsAuth fetchSucceeds fetchBeforeSettle : Bool) :
    ProbeResources :=
  if needsAuth then
    if fetchSucceeds then
      if fetchBeforeSettle then ⟨1, 1⟩ else ⟨1, 0⟩
    else ⟨0, 0⟩
  else ⟨0, 0⟩

/-! ## Playback state machine

The playback handlers of ResultPanel.tsx are embedded as transition
functions on a record holding the component's state variables together with
the paused/playing flags of the merged audio element and of each
`AudioFileItem`'s audio element and local `isPlaying` state. The 500 ms
deferred highlight clearing scheduled by `handleItemPlayEnd` and the
per-item `localProgress` are not needed by any claim and are not modelled. -/

inductive PlaySource
  | merged
  | item
deriving DecidableEq, Repr

structure PanelState where
  /-- the merged `<audio>` element is not paused -/
  mergedElPlaying : Bool
  /-- per item: its `<audio>` element is not paused -/
  itemElPlaying : List Bool
  /-- per item: the `AudioFileItem`'s local `isPlaying` state -/
  itemIsPlaying : List Bool
  /-- `playingMerged` state -/
  playingMerged : Bool
  /-- `playingSource` state -/
  playingSource : Option PlaySource
  /-- `playingItemIndex` state -/
  playingItemIndex : Option Nat
  /-- `highlightIndex` state -/
  highlightIndex : Option Nat
  /-- `charProgress` state -/
  charProgress : ℚ
  /-- `currentTime` state (the merged element's current time) -/
  currentTime : ℚ
  /-- the `timeRanges` memo, fixed while playback runs -/
  ranges : List TimeRange
deriving DecidableEq, Repr

/-- `handleItemPlayStart` (ResultPanel.tsx line 296-306): pause the merged
element if merged audio is playing, then mark the item as the playing
source and highlight it. -/
def handleItemPlayStart (i : Nat) (s : PanelState) : PanelState :=
  let s1 :=
    if s.playingMerged then { s with mergedElPlaying := false, playingMerged := false }
    else s
  { s1 with
      playingSource := some PlaySource.item
      playingItemIndex := some i
      highlightIndex := some i
      charProgress := 0 }

/-- Immediate part of `handleItemPlayEnd` (ResultPanel.tsx line 309-320):
when the ended item is the recorded playing item, clear the index and the
progress (the 500 ms deferred highlight clearing is a later event not
modelled here). -/
def handleItemPlayEnd (i : Nat) (s : PanelState) : PanelState :=
  if s.playingItemIndex = some i then { s with playingItemIndex := none, charProgress := 0 }
  else s

/-- `AudioFileItem.togglePlay`, start branch, success (ResultPanel.tsx line
703-736): `onPlayStart` runs first (pausing merged audio), then
`audio.play()` resolves and the local `isPlaying` becomes true. -/
def itemTogglePlaySuccess (i : Nat) (s : PanelState) : PanelState :=
  let s1 := handleItemPlayStart i s
  { s1 with
      itemElPlaying := s1.itemElPlaying.set i true
      itemIsPlaying := s1.itemIsPlaying.set i true }

/-- `AudioFileItem.togglePlay`, start branch, failure (ResultPanel.tsx line
737-740): `onPlayStart` ran, `play()` (or the authenticated fetch) rejected,
the `catch` logs the error and calls `onPlayEnd`; the local `isPlaying` was
never set. -/
def itemTogglePlayFail (i : Nat) (s : PanelState) : PanelState :=
  handleItemPlayEnd i (handleItemPlayStart i s)

/-- `AudioFileItem.togglePlay`, pause branch (ResultPanel.tsx line 698-701):
pause the element, clear the local flag, call `onPlayEnd`. -/
def itemTogglePause (i : Nat) (s : PanelState) : PanelState :=
  handleItemPlayEnd i
    { s with
        itemElPlaying := s.itemElPlaying.set i false
        itemIsPlaying := s.itemIsPlaying.set i false }

/-- `AudioFileItem.handleEnded` (ResultPanel.tsx line 744-748) together with
the element stopping at its natural end. -/
def handleItemEnded (i : Nat) (s : PanelState) : PanelState :=
  handleItemPlayEnd i
    { s with
        itemElPlaying := s.itemElPlaying.set i false
        itemIsPlaying := s.itemIsPlaying.set i false }

/-- The `shouldStopPlaying` effect of `AudioFileItem` (ResultPanel.tsx line
677-683) for item i, with the prop wired as
`playingSource === 'merged' && playingMerged` (line 564): a playing item is
paused only when merged audio is the active playing source. -/
def shouldStopPlayingEffect (i : Nat) (s : PanelState) : PanelState :=
  if (s.playingSource = some PlaySource.merged ∧ s.playingMerged) ∧
      s.itemIsPlaying.getD i false then
    { s with
        itemElPlaying := s.itemElPlaying.set i false
        itemIsPlaying := s.itemIsPlaying.set i false }
  else s

/-- `toggleMergedPlay`, pause branch (ResultPanel.tsx line 326-329). -/
def toggleMergedPause (s : PanelState) : PanelState :=
  { s with mergedElPlaying := false, playingMerged := false, playingSource := none }

/-- `toggleMergedPlay`, play branch, success (ResultPanel.tsx line 330-365):
`setPlayingItemIndex(null)` runs first, then `play()` resolves, the merged
flags are set, and the mapper result at the element's current time drives
progress and highlight. -/
def toggleMergedPlaySuccess (s : PanelState) : PanelState :=
  let s1 := { s with playingItemIndex := none }
  let s2 :=
    { s1 with
        mergedElPlaying := true
        playingMerged := true
        playingSource := some PlaySource.merged }
  let res := findCurrentDialogueIndex s2.ranges s2.currentTime
  let s3 := { s2 with charProgress := res.progress }
  match res.index with
  | some i => { s3 with highlightIndex := some i }
  | none => s3

/-- `toggleMergedPlay`, play branch, failure (ResultPanel.tsx line 366-368):
`setPlayingItemIndex(null)` already ran; the `catch` only logs, so nothing
else changes and nothing is restored. -/
def toggleMergedPlayFail (s : PanelState) : PanelState :=
  { s with playingItemIndex := none }

/-- `handleMergedEnded` (ResultPanel.tsx line 372-377), with the element
stopped at its natural end. -/
def handleMergedEnded (s : PanelState) : PanelState :=
  { s with
      mergedElPlaying := false
      playingMerged := false
      playingSource := none
      highlightIndex := none
      charProgress := 0 }

/-- `handleMergedTimeUpdate` (ResultPanel.tsx line 281-293): record the
current time; only when the playing source is the merged track, recompute
progress and, when the mapped index exists and differs from the current
highlight, move the highlight. -/
def handleMergedTimeUpdate (t : ℚ) (s : PanelState) : PanelState :=
  let s1 := { s with currentTime := t }
  if s.playingSource = some PlaySource.merged then
    let res := findCurrentDialogueIndex s.ranges t
    let s2 := { s1 with charProgress := res.progress }
    match res.index with
    | some i => if some i ≠ s.highlightIndex then { s2 with highlightIndex := some i } else s2
    | none => s2
  else s1

/-- The component's state right after mount / session reset (ResultPanel.tsx
line 412-428 resets everything; item elements start paused). -/
def initPanelState (nItems : Nat) (ranges : List TimeRange) : PanelState where
  mergedElPlaying := false
  itemElPlaying := List.replicate nItems false
  itemIsPlaying := List.replicate nItems false
  playingMerged := false
  playingSource := none
  playingItemIndex := none
  highlightIndex := none
  charProgress := 0
  currentTime := 0
  ranges := ranges

/-- One user- or browser-driven transition of the playback machinery, with
the guards under which the source takes each branch. -/
inductive PanelStep : PanelState → PanelState → Prop
  | itemPlay (i : Nat) (s : PanelState) (h : s.itemIsPlaying.getD i false = false) :
      PanelStep s (itemTogglePlaySuccess i s)
  | itemPlayFail (i : Nat) (s : PanelState) (h : s.itemIsPlaying.getD i false = false) :
      PanelStep s (itemTogglePlayFail i s)
  | itemPause (i : Nat) (s : PanelState) (h : s.itemIsPlaying.getD i false = true) :
      PanelStep s (itemTogglePause i s)
  | itemEnded (i : Nat) (s : PanelState) : PanelStep s (handleItemEnded i s)
  | stopEffect (i : Nat) (s : PanelState) : PanelStep s (shouldStopPlayingEffect i s)
  | mergedPause (s : PanelState) (h : s.playingMerged = true) :
      PanelStep s (toggleMergedPause s)
  | mergedPlay (s : PanelState) (h : s.playingMerged = false) :
      PanelStep s (toggleMergedPlaySuccess s)
  | mergedPlayFail (s : PanelState) (h : s.playingMerged = false) :
      PanelStep s (toggleMergedPlayFail s)
  | mergedEnded (s : PanelState) : PanelStep s (handleMergedEnded s)
  | timeUpdate (t : ℚ) (s : PanelState) : PanelStep s (handleMergedTimeUpdate t s)

/-- Reachability from a freshly mounted result panel. -/
def PanelReachable (nItems : Nat) (ranges : List TimeRange) (s : PanelState) : Prop :=
  Relation.ReflTransGen PanelStep (initPanelState nItems ranges) s

/-- How many audio elements are currently playing. -/
def playingCount (s : PanelState) : Nat :=
  (if s.mergedElPlaying then 1 else 0) + s.itemElPlaying.count true

/-- A fully idle playback state: no flags set, no element playing. -/
def IdleState (s : PanelState) : Prop :=
  s.playingMerged = false ∧ s.playingSource = none ∧ s.playingItemIndex = none ∧
    s.mergedElPlaying = false ∧ s.itemElPlaying.count true = 0

instance (s : PanelState) : Decidable (IdleState s) := by
  unfold IdleState; infer_instance

/-- The state after the user starts item 0 and then item 1 on a two-item
panel: the code never pauses item 0's element. -/
def twoItemsPlayingState : PanelState :=
  itemTogglePlaySuccess 1 (itemTogglePlaySuccess 0 (initPanelState 2 []))

/-- The state after the user starts item 0 on a two-item panel. -/
def itemZeroPlayingState : PanelState :=
  itemTogglePlaySuccess 0 (initPanelState 2 [])

/-- The state after the user successfully starts merged playback on a fresh
two-item panel. -/
def mergedPlayingState : PanelState :=
  toggleMergedPlaySuccess (initPanelState 2 [])

/-! ## Helper lemmas about the cursor walk -/

theorem specWalk_eq_buildRanges (g sc : ℚ) :
    ∀ (ds : List ℚ) (c : ℚ), specWalk g sc ds c = buildRanges g sc ds c
  | [], _ => rfl
  | [_], _ => rfl
  | d :: d2 :: rest, c => by
      rw [specWalk, buildRanges, specWalk_eq_buildRanges g sc (d2 :: rest)]

theorem buildRanges_length (g sc : ℚ) :
    ∀ (ds : List ℚ) (c : ℚ), (buildRanges g sc ds c).length = ds.length
  | [], _ => rfl
  | [_], _ => rfl
  | d :: d2 :: rest, c => by
      rw [buildRanges]
      simp [buildRanges_length g sc (d2 :: rest)]

theorem buildRanges_cons_eq (g sc d : ℚ) (rest : List ℚ) (c : ℚ) :
    ∃ tl, buildRanges g sc (d :: rest) c = TimeRange.mk c (c + d * sc) :: tl := by
  cases rest with
  | nil => exact ⟨[], rfl⟩
  | cons d2 r => exact ⟨_, rfl⟩

theorem buildRanges_head_start (g sc d : ℚ) (rest : List ℚ) (c : ℚ) :
    (buildRanges g sc (d :: rest) c).head?.map TimeRange.start = some c := by
  obtain ⟨tl, htl⟩ := buildRanges_cons_eq g sc d rest c
  rw [htl]; rfl

theorem buildRanges_getLast_stop (g sc : ℚ) :
    ∀ (ds : List ℚ) (c : ℚ), ds ≠ [] →
      (buildRanges g sc ds c).getLast?.map TimeRange.stop =
        some (c + ds.sum * sc + ((ds.length : ℚ) - 1) * (g * sc))
  | [], _, h => absurd rfl h
  | [d], c, _ => by
      simp only [buildRanges, List.getLast?_singleton, Option.map_some', List.sum_cons,
        List.sum_nil, List.length_singleton]
      norm_num
  | d :: d2 :: rest, c, _ => by
      have ih := buildRanges_getLast_stop g sc (d2 :: rest) (c + d * sc + g * sc)
        (List.cons_ne_nil _ _)
      obtain ⟨tl, htl⟩ := buildRanges_cons_eq g sc d2 rest (c + d * sc + g * sc)
      rw [buildRanges, htl, List.getLast?_cons_cons, ← htl, ih]
      congr 1
      push_cast [List.sum_cons, List.length_cons]
      ring

theorem buildRanges_chain_gap (g sc : ℚ) :
    ∀ (ds : List ℚ) (c : ℚ),
      List.Chain' (fun a b => b.start = a.stop + g * sc) (buildRanges g sc ds c)
  | [], _ => List.chain'_nil
  | [_], _ => List.chain'_singleton _
  | d :: d2 :: rest, c => by
      rw [buildRanges, List.chain'_cons']
      refine ⟨fun y hy => ?_, buildRanges_chain_gap g sc (d2 :: rest) _⟩
      obtain ⟨tl, htl⟩ := buildRanges_cons_eq g sc d2 rest (c + d * sc + g * sc)
      rw [htl] at hy
      simp only [List.head?_cons, Option.mem_def, Option.some.injEq] at hy
      subst hy
      rfl

theorem buildRanges_mem_stop (g sc : ℚ) :
    ∀ (ds : List ℚ) (c : ℚ), ∀ r ∈ buildRanges g sc ds c, ∃ d ∈ ds, r.stop = r.start + d * sc
  | [], _, r, hr => absurd hr (List.not_mem_nil r)
  | [d], c, r, hr => by
      simp only [buildRanges, List.mem_singleton] at hr
      subst hr
      exact ⟨d, List.mem_singleton_self d, rfl⟩
  | d :: d2 :: rest, c, r, hr => by
      rw [buildRanges, List.mem_cons] at hr
      rcases hr with hr | hr
      · subst hr
        exact ⟨d, List.mem_cons_self _ _, rfl⟩
      · obtain ⟨d', hd', he⟩ := buildRanges_mem_stop g sc (d2 :: rest) _ r hr
        exact ⟨d', List.mem_cons_of_mem _ hd', he⟩

theorem itemDurationsSecFrom_length (estimates : List ℚ) :
    ∀ (i : Nat) (dialogues : List DialogueItem),
      (itemDurationsSecFrom estimates i dialogues).length = dialogues.length
  | _, [] => rfl
  | i, _ :: rest => by
      rw [itemDurationsSecFrom]
      simp [itemDurationsSecFrom_length estimates (i + 1) rest]

theorem inferredGapSec_nonneg (n : Nat) (duration totalItemsSec : ℚ) :
    0 ≤ inferredGapSec n duration totalItemsSec := by
  unfold inferredGapSec
  split
  · exact le_max_right _ 0
  · norm_num

/-! ## Helper lemmas about the playback position mapper -/

/-- Well-formed range lists: each range has nonnegative length and earlier
ranges end no later than later ranges begin. The Timeline Reconstructor
produces such lists for nonnegative duration inputs. -/
def RangesWellFormed (ranges : List TimeRange) : Prop :=
  (∀ r ∈ ranges, r.start ≤ r.stop) ∧ List.Pairwise (fun a b => a.stop ≤ b.start) ranges

instance (ranges : List TimeRange) : Decidable (RangesWellFormed ranges) := by
  unfold RangesWellFormed; infer_instance

theorem findLoop_eq_none (t : ℚ) :
    ∀ (ranges : List TimeRange) (k : Nat),
      (∀ r ∈ ranges, ¬(r.start ≤ t ∧ t < r.stop)) → findLoop t ranges k = none
  | [], _, _ => rfl
  | r :: rest, k, h => by
      rw [findLoop, if_neg (h r (List.mem_cons_self r rest))]
      exact findLoop_eq_none t rest (k + 1) fun r' hr' => h r' (List.mem_cons_of_mem r hr')

theorem findLoop_eq_some (t : ℚ) :
    ∀ (ranges : List TimeRange) (k : Nat), RangesWellFormed ranges →
      ∀ (i : Nat) (hi : i < ranges.length),
        (ranges.get ⟨i, hi⟩).start ≤ t → t < (ranges.get ⟨i, hi⟩).stop →
          findLoop t ranges k =
            some (k + i, (t - (ranges.get ⟨i, hi⟩).start) /
              ((ranges.get ⟨i, hi⟩).stop - (ranges.get ⟨i, hi⟩).start))
  | [], _, _, i, hi, _, _ => absurd hi (Nat.not_lt_zero i)
  | r :: rest, k, hwf, 0, hi, hs, he => by
      rw [findLoop, if_pos ⟨hs, he⟩]
      have hpos : 0 < r.stop - r.start := by
        have : r.start ≤ t := hs
        have : t < r.stop := he
        simp only [List.get] at *
        linarith
      simp only [List.get] at hs he ⊢
      rw [if_pos hpos, Nat.add_zero]
  | r :: rest, k, hwf, i + 1, hi, hs, he => by
      have hrest : i < rest.length := Nat.lt_of_succ_lt_succ hi
      have hpair := (List.pairwise_cons.mp hwf.2).1
      have hmem : rest.get ⟨i, hrest⟩ ∈ rest := List.get_mem rest i hrest
      have hrstop : r.stop ≤ (rest.get ⟨i, hrest⟩).start := hpair _ hmem
      have hsk : (rest.get ⟨i, hrest⟩).start ≤ t := hs
      have hnot : ¬(r.start ≤ t ∧ t < r.stop) := by
        rintro ⟨-, hlt⟩
        exact absurd (lt_of_lt_of_le hlt (le_trans hrstop hsk)) (lt_irrefl t)
      rw [findLoop, if_neg hnot]
      have hwfrest : RangesWellFormed rest :=
        ⟨fun r' hr' => hwf.1 r' (List.mem_cons_of_mem r hr'), (List.pairwise_cons.mp hwf.2).2⟩
      have := findLoop_eq_some t rest (k + 1) hwfrest i hrest hs he
      rw [this]
      congr 1
      rw [Prod.mk.injEq]
      exact ⟨by omega, rfl⟩

/-! ## Helper lemmas about the prober model -/

theorem runSettle_some (v : ℚ) :
    ∀ (events : List ProbeEvent), runSettle events (some v) = some v
  | [] => rfl
  | _ :: rest => by rw [runSettle]; exact runSettle_some v rest

theorem getDurationForUrl_first (e : ProbeEvent) (rest : List ProbeEvent) :
    getDurationForUrl (e :: rest) = settleValue e := by
  rw [getDurationForUrl, runSettle, runSettle_some]
  rfl

theorem probeLoopAux_none :
    ∀ (evss : List (List ProbeEvent)) (j : Nat) (acc : List ℚ),
      probeLoopAux none evss j acc = some (acc.reverse ++ evss.map getDurationForUrl)
  | [], _, acc => by simp [probeLoopAux, probeCancelled]
  | evs :: rest, j, acc => by
      rw [probeLoopAux]
      simp only [probeCancelled, Bool.false_eq_true, if_false]
      rw [probeLoopAux_none rest (j + 1) (getDurationForUrl evs :: acc)]
      simp [List.map_cons]

/-- Retrieving the just-written `false` from a list of flags gives `false`
(also off the end, where the default is `false`). -/
theorem getD_set_false : ∀ (l : List Bool) (j : Nat), (l.set j false).getD j false = false
  | [], _ => rfl
  | _ :: _, 0 => rfl
  | a :: l, j + 1 => by
      rw [List.set_cons_succ, List.getD_cons_succ]
      exact getD_set_false l j

/-! ## Claim theorems -/

/-- Claim C1, counterexample: the Timeline Reconstructor does not take a
present-but-zero prober estimate as the item duration. For one dialogue item
with no stored duration and estimate list `[0]`, the claimed algorithm
(duration taken from the prober's estimate whenever present) yields the
range `[0, 0)`, while the code's JavaScript `||` treats the `0` estimate as
absent and falls back to the 2-second default, yielding `[0, 2)`. -/
theorem C1_counterexample :
    timeRanges [{ index := 0, character := "A", text := "a" }] [0] 0 = [⟨0, 2⟩] ∧
    timeRangesSpec [{ index := 0, character := "A", text := "a" }] [0] 0 = [⟨0, 0⟩] ∧
    timeRanges [{ index := 0, character := "A", text := "a" }] [0] 0 ≠
      timeRangesSpec [{ index := 0, character := "A", text := "a" }] [0] 0 := by
  refine ⟨?_, ?_, ?_⟩ <;>
    norm_num [timeRanges, timeRangesSpec, itemDurationsSec, itemDurationsSecFrom,
      itemDurationSec, specItemDurationsFrom, specItemDuration, inferredGapSec,
      baseTotalSec, scaleFactor, buildRanges, specWalk]

/-- Claim C1 (amended): the Timeline Reconstructor is a pure function of the
dialogue list, the prober estimates and the merged duration D, computing
exactly the specification's algorithm - with per-item durations taken from
the prober estimate when present and nonzero, else `duration_ms / 1000` when
present and nonzero, else 2 seconds (JavaScript falsiness) - and on the
concrete scenarios: durations [2, 3, 1] with D = 8 give ranges
[0, 2), [3, 6), [7, 8); the same durations with D = 0 give
[0, 2), [2.5, 5.5), [6, 7); an empty dialogue list gives no ranges. -/
theorem C1_timeline_reconstructor (dialogues : List DialogueItem) (estimates : List ℚ)
    (D : ℚ) :
    timeRanges dialogues estimates D = timeRangesSpecAmended dialogues estimates D ∧
    timeRanges [] estimates D = [] ∧
    timeRanges exDialogues3 [2, 3, 1] 8 = [⟨0, 2⟩, ⟨3, 6⟩, ⟨7, 8⟩] ∧
    timeRanges exDialogues3 [2, 3, 1] 0 = [⟨0, 2⟩, ⟨5/2, 11/2⟩, ⟨6, 7⟩] := by
  refine ⟨?_, rfl, ?_, ?_⟩
  · simp only [timeRanges, timeRangesSpecAmended, itemDurationsSec, inferredGapSec,
      baseTotalSec, scaleFactor, specWalk_eq_buildRanges]
  · norm_num [timeRanges, itemDurationsSec, itemDurationsSecFrom, itemDurationSec,
      exDialogues3, inferredGapSec, baseTotalSec, scaleFactor, buildRanges]
  · norm_num [timeRanges, itemDurationsSec, itemDurationsSecFrom, itemDurationSec,
      exDialogues3, inferredGapSec, baseTotalSec, scaleFactor, buildRanges]

/-- Claim C2, counterexample: consecutive ranges are not contiguous in
general. With durations [2, 3, 1] and unknown merged duration (D = 0) the
reconstructor inserts the default half-second gap: range 0 ends at 2 while
range 1 starts at 5/2. -/
theorem C2_counterexample :
    timeRanges exDialogues3 [2, 3, 1] 0 = [⟨0, 2⟩, ⟨5/2, 11/2⟩, ⟨6, 7⟩] ∧
    ¬ List.Chain' (fun a b => a.stop = b.start)
      [(⟨0, 2⟩ : TimeRange), ⟨5/2, 11/2⟩, ⟨6, 7⟩] := by
  constructor
  · norm_num [timeRanges, itemDurationsSec, itemDurationsSecFrom, itemDurationSec,
      exDialogues3, inferredGapSec, baseTotalSec, scaleFactor, buildRanges]
  · intro h
    rw [List.chain'_cons] at h
    have : (2 : ℚ) = 5/2 := h.1
    norm_num at this

/-- Claim C2 (amended): for every input, consecutive ranges of the Timeline
Reconstructor satisfy `range[i+1].start = range[i].end + g * scale`, where g
is the inferred gap and scale the rescaling factor for that input; they are
strictly contiguous only when the scaled gap is zero. -/
theorem C2_consecutive_ranges (dialogues : List DialogueItem) (estimates : List ℚ)
    (D : ℚ) :
    List.Chain'
      (fun a b => b.start = a.stop +
        inferredGapSec dialogues.length D (itemDurationsSec dialogues estimates).sum *
          scaleFactor D
            (baseTotalSec dialogues.length (itemDurationsSec dialogues estimates).sum
              (inferredGapSec dialogues.length D (itemDurationsSec dialogues estimates).sum)))
      (timeRanges dialogues estimates D) := by
  simp only [timeRanges]
  exact buildRanges_chain_gap _ _ _ _

/-- Claim C3: with nonnegative per-item durations, positive merged duration
D and positive base total, the reconstructed ranges are ordered
(`range[i].end <= range[i+1].start`), each has nonnegative length, the first
range starts at 0, and the last range's end equals D exactly in rational
arithmetic - the scale factor D / baseTotal enforces it algebraically. -/
theorem C3_ranges_span (dialogues : List DialogueItem) (estimates : List ℚ) (D : ℚ)
    (hd : ∀ d ∈ itemDurationsSec dialogues estimates, 0 ≤ d)
    (hD : 0 < D)
    (hbase : 0 < baseTotalSec dialogues.length (itemDurationsSec dialogues estimates).sum
        (inferredGapSec dialogues.length D (itemDurationsSec dialogues estimates).sum)) :
    List.Chain' (fun a b => a.stop ≤ b.start) (timeRanges dialogues estimates D) ∧
    (∀ r ∈ timeRanges dialogues estimates D, r.start ≤ r.stop) ∧
    (timeRanges dialogues estimates D).head?.map TimeRange.start = some 0 ∧
    (timeRanges dialogues estimates D).getLast?.map TimeRange.stop = some D := by
  have hg : 0 ≤ inferredGapSec dialogues.length D (itemDurationsSec dialogues estimates).sum :=
    inferredGapSec_nonneg _ _ _
  have hsc : 0 < scaleFactor D
      (baseTotalSec dialogues.length (itemDurationsSec dialogues estimates).sum
        (inferredGapSec dialogues.length D (itemDurationsSec dialogues estimates).sum)) := by
    unfold scaleFactor
    rw [if_pos ⟨hD, hbase⟩]
    exact div_pos hD hbase
  rcases dialogues with _ | ⟨d0, drest⟩
  · exfalso
    simp only [itemDurationsSec, itemDurationsSecFrom, List.length_nil, List.sum_nil,
      baseTotalSec] at hbase
    rw [show ((0 : Nat) : ℚ) - 1 = -1 by norm_num,
      max_eq_right (by norm_num : (-1 : ℚ) ≤ 0)] at hbase
    simp at hbase
  · have hdsform : itemDurationsSec (d0 :: drest) estimates =
        itemDurationSec estimates 0 d0 :: itemDurationsSecFrom estimates 1 drest := rfl
    have hdsne : itemDurationsSec (d0 :: drest) estimates ≠ [] := by
      rw [hdsform]; exact List.cons_ne_nil _ _
    have hlen : (itemDurationsSec (d0 :: drest) estimates).length = (d0 :: drest).length := by
      rw [itemDurationsSec]; exact itemDurationsSecFrom_length estimates 0 _
    refine ⟨?_, ?_, ?_, ?_⟩
    · simp only [timeRanges]
      refine (buildRanges_chain_gap _ _ _ _).imp ?_
      intro a b hab
      rw [hab]
      have := mul_nonneg hg hsc.le
      linarith
    · simp only [timeRanges]
      intro r hr
      obtain ⟨d, hdmem, he⟩ := buildRanges_mem_stop _ _ _ _ r hr
      rw [he]
      have := mul_nonneg (hd d hdmem) hsc.le
      linarith
    · simp only [timeRanges]
      rw [hdsform]
      exact buildRanges_head_start _ _ _ _ _
    · simp only [timeRanges]
      rw [buildRanges_getLast_stop _ _ _ _ hdsne, hlen, Option.some.injEq]
      have hn1 : (1 : ℚ) ≤ ((d0 :: drest).length : ℚ) := by
        have : 1 ≤ (d0 :: drest).length := Nat.succ_le_of_lt (Nat.pos_of_ne_zero (by simp))
        exact_mod_cast this
      have hmax : max (((d0 :: drest).length : ℚ) - 1) 0 = ((d0 :: drest).length : ℚ) - 1 :=
        max_eq_left (by linarith)
      have hbaseval : baseTotalSec (d0 :: drest).length
          (itemDurationsSec (d0 :: drest) estimates).sum
          (inferredGapSec (d0 :: drest).length D (itemDurationsSec (d0 :: drest) estimates).sum) =
          (itemDurationsSec (d0 :: drest) estimates).sum +
            inferredGapSec (d0 :: drest).length D (itemDurationsSec (d0 :: drest) estimates).sum *
              (((d0 :: drest).length : ℚ) - 1) := by
        unfold baseTotalSec
        rw [hmax]
      have hscval : scaleFactor D
          (baseTotalSec (d0 :: drest).length (itemDurationsSec (d0 :: drest) estimates).sum
            (inferredGapSec (d0 :: drest).length D
              (itemDurationsSec (d0 :: drest) estimates).sum)) =
          D / (baseTotalSec (d0 :: drest).length (itemDurationsSec (d0 :: drest) estimates).sum
            (inferredGapSec (d0 :: drest).length D
              (itemDurationsSec (d0 :: drest) estimates).sum)) := by
        unfold scaleFactor
        rw [if_pos ⟨hD, hbase⟩]
      have hbne : (itemDurationsSec (d0 :: drest) estimates).sum +
          inferredGapSec (d0 :: drest).length D (itemDurationsSec (d0 :: drest) estimates).sum *
            (((d0 :: drest).length : ℚ) - 1) ≠ 0 := by
        rw [← hbaseval]
        exact ne_of_gt hbase
      rw [hscval]
      have key : ∀ (S g L B : ℚ), B ≠ 0 → B = S + g * (L - 1) →
          0 + S * (D / B) + (L - 1) * (g * (D / B)) = D := by
        intro S g L B hB hBe
        calc 0 + S * (D / B) + (L - 1) * (g * (D / B)) = (S + g * (L - 1)) * (D / B) := by ring
          _ = B * (D / B) := by rw [← hBe]
          _ = D := by rw [mul_comm, div_mul_cancel₀ D hB]
      exact key _ _ _ _ (ne_of_gt hbase) hbaseval

/-- Claim C3, witness: the concrete scenario with durations [2, 3, 1] and
D = 8; the first range starts at 0 and the last range ends exactly at 8. -/
theorem C3_ranges_span_witness :
    (0 : ℚ) < 8 ∧
    (timeRanges exDialogues3 [2, 3, 1] 8).head?.map TimeRange.start = some 0 ∧
    (timeRanges exDialogues3 [2, 3, 1] 8).getLast?.map TimeRange.stop = some 8 := by
  have h := C3_ranges_span exDialogues3 [2, 3, 1] 8
    (by norm_num [itemDurationsSec, itemDurationsSecFrom, itemDurationSec, exDialogues3])
    (by norm_num)
    (by norm_num [itemDurationsSec, itemDurationsSecFrom, itemDurationSec, exDialogues3,
      baseTotalSec, inferredGapSec])
  exact ⟨by norm_num, h.2.2.1, h.2.2.2⟩

/-- Claim C4: on a well-formed range list, the Playback Position Mapper
returns, for `range[i].start <= t < range[i].end`, the index i with progress
`(t - start) / (end - start)` lying in [0, 1]; for t at or past the final
range's end it returns the last index with progress exactly 1; and on the
empty list it returns no active index - and it is total by construction. -/
theorem C4_position_mapper (ranges : List TimeRange) (t : ℚ)
    (hwf : RangesWellFormed ranges) :
    (∀ (i : Nat) (hi : i < ranges.length),
        (ranges.get ⟨i, hi⟩).start ≤ t → t < (ranges.get ⟨i, hi⟩).stop →
          findCurrentDialogueIndex ranges t =
            ⟨some i, (t - (ranges.get ⟨i, hi⟩).start) /
              ((ranges.get ⟨i, hi⟩).stop - (ranges.get ⟨i, hi⟩).start)⟩ ∧
          0 ≤ (t - (ranges.get ⟨i, hi⟩).start) /
              ((ranges.get ⟨i, hi⟩).stop - (ranges.get ⟨i, hi⟩).start) ∧
          (t - (ranges.get ⟨i, hi⟩).start) /
              ((ranges.get ⟨i, hi⟩).stop - (ranges.get ⟨i, hi⟩).start) ≤ 1) ∧
    (∀ lastR ∈ ranges.getLast?, lastR.stop ≤ t →
        findCurrentDialogueIndex ranges t = ⟨some (ranges.length - 1), 1⟩) ∧
    (ranges = [] → findCurrentDialogueIndex ranges t = ⟨none, 0⟩) := by
  refine ⟨?_, ?_, ?_⟩
  · intro i hi hs he
    have hfl := findLoop_eq_some t ranges 0 hwf i hi hs he
    have hpos : 0 < (ranges.get ⟨i, hi⟩).stop - (ranges.get ⟨i, hi⟩).start :=
      sub_pos.mpr (lt_of_le_of_lt hs he)
    refine ⟨?_, div_nonneg (by linarith) hpos.le, ?_⟩
    · simp only [findCurrentDialogueIndex, hfl, Nat.zero_add]
    · rw [div_le_one hpos]
      linarith
  · intro lastR hlast ht
    have hne : ranges ≠ [] := by
      rintro rfl
      simp at hlast
    have hlen0 : 0 < ranges.length := List.length_pos.mpr hne
    have hlast' : ranges.getLast? = some lastR := Option.mem_def.mp hlast
    have hltlen : ranges.length - 1 < ranges.length := by omega
    have hm : ranges.get ⟨ranges.length - 1, hltlen⟩ = lastR := by
      have h1 := List.getLast?_eq_getElem? ranges
      rw [hlast', List.getElem?_eq_getElem hltlen] at h1
      have := Option.some.inj h1
      exact this.symm
    have hmem : lastR ∈ ranges := by
      rw [← hm]
      exact List.get_mem ranges _ hltlen
    have hnone : findLoop t ranges 0 = none := by
      refine findLoop_eq_none t ranges 0 ?_
      rintro r hr ⟨hrs, hrt⟩
      obtain ⟨⟨i, hilt⟩, hreq⟩ := List.mem_iff_get.mp hr
      have hstop : r.stop ≤ t := by
        rcases Nat.lt_or_ge i (ranges.length - 1) with hcase | hcase
        · have hpair := List.pairwise_iff_get.mp hwf.2 ⟨i, hilt⟩
            ⟨ranges.length - 1, hltlen⟩ hcase
          rw [hreq, hm] at hpair
          have hws : lastR.start ≤ lastR.stop := hwf.1 lastR hmem
          linarith
        · have hieq : i = ranges.length - 1 := by omega
          subst hieq
          have hrl : r = lastR := by rw [← hreq, ← hm]
          rw [hrl]
          exact ht
      exact absurd hrt (not_lt.2 hstop)
    have hws : lastR.start ≤ t := le_trans (hwf.1 lastR hmem) ht
    simp only [findCurrentDialogueIndex, hnone, hlast', if_pos hws]
  · rintro rfl
    rfl

/-- Claim C4, witness: on the ranges [0, 2), [3, 6), [7, 8) the mapper at
t = 9/2 returns index 1 with progress 1/2. -/
theorem C4_position_mapper_witness :
    RangesWellFormed [⟨0, 2⟩, ⟨3, 6⟩, ⟨7, 8⟩] ∧
    findCurrentDialogueIndex [⟨0, 2⟩, ⟨3, 6⟩, ⟨7, 8⟩] (9/2) = ⟨some 1, 1/2⟩ := by
  have hwf : RangesWellFormed [⟨0, 2⟩, ⟨3, 6⟩, ⟨7, 8⟩] := by
    constructor
    · intro r hr
      fin_cases hr <;> norm_num
    · norm_num [List.pairwise_cons]
  refine ⟨hwf, ?_⟩
  have h := ((C4_position_mapper [⟨0, 2⟩, ⟨3, 6⟩, ⟨7, 8⟩] (9/2) hwf).1 1 (by norm_num)
    (show (3 : ℚ) ≤ 9/2 by norm_num) (show (9 : ℚ)/2 < 6 by norm_num)).1
  rw [h]
  have : ((9 : ℚ)/2 - 3) / (6 - 3) = 1/2 := by norm_num
  rw [show ([(⟨0, 2⟩ : TimeRange), ⟨3, 6⟩, ⟨7, 8⟩].get ⟨1, by norm_num⟩) = ⟨3, 6⟩ from rfl]
  rw [this]

/-- Claim C10: for a time that lies in no range and is strictly below the
last range's start (inside an inferred gap, before the first range, at a
negative time, or on the empty list), the mapper returns no active index and
progress 0. -/
theorem C10_mapper_no_active (ranges : List TimeRange) (t : ℚ)
    (h1 : ∀ r ∈ ranges, ¬(r.start ≤ t ∧ t < r.stop))
    (h2 : ∀ lastR ∈ ranges.getLast?, t < lastR.start) :
    findCurrentDialogueIndex ranges t = ⟨none, 0⟩ := by
  have hnone := findLoop_eq_none t ranges 0 h1
  cases hl : ranges.getLast? with
  | none => simp only [findCurrentDialogueIndex, hnone, hl]
  | some lastR =>
      have hlt : t < lastR.start := h2 lastR (Option.mem_def.mpr hl)
      simp only [findCurrentDialogueIndex, hnone, hl, if_neg (not_le.mpr hlt)]

/-- Claim C10, witness: t = 2 falls in the gap between [0, 2) and [3, 6) of
the reconstructed ranges for D = 8, and the mapper reports no active index. -/
theorem C10_mapper_no_active_witness :
    (∀ r ∈ [(⟨0, 2⟩ : TimeRange), ⟨3, 6⟩, ⟨7, 8⟩], ¬(r.start ≤ 2 ∧ (2 : ℚ) < r.stop)) ∧
    findCurrentDialogueIndex [⟨0, 2⟩, ⟨3, 6⟩, ⟨7, 8⟩] 2 = ⟨none, 0⟩ := by
  have h1 : ∀ r ∈ [(⟨0, 2⟩ : TimeRange), ⟨3, 6⟩, ⟨7, 8⟩],
      ¬(r.start ≤ 2 ∧ (2 : ℚ) < r.stop) := by
    intro r hr
    fin_cases hr <;> norm_num
  refine ⟨h1, C10_mapper_no_active _ 2 h1 ?_⟩
  intro lastR hlast
  have hx := Option.mem_def.mp hlast
  rw [show ([(⟨0, 2⟩ : TimeRange), ⟨3, 6⟩, ⟨7, 8⟩].getLast?) = some ⟨7, 8⟩ from rfl] at hx
  rw [(Option.some.inj hx).symm]
  norm_num

/-- Claim C5, counterexample: starting item 1 while item 0 is playing does
not pause item 0's element - `handleItemPlayStart` only pauses the merged
element, and the `shouldStopPlaying` effect only fires while merged audio is
the playing source - so the reachable state after the two clicks has two
audio elements playing at once. -/
theorem C5_counterexample :
    PanelReachable 2 [] twoItemsPlayingState ∧ playingCount twoItemsPlayingState = 2 := by
  constructor
  · have h1 : PanelStep (initPanelState 2 []) (itemTogglePlaySuccess 0 (initPanelState 2 [])) :=
      PanelStep.itemPlay 0 _ (by decide)
    have h2 : PanelStep (itemTogglePlaySuccess 0 (initPanelState 2 []))
        twoItemsPlayingState :=
      PanelStep.itemPlay 1 _ (by decide)
    exact Relation.ReflTransGen.tail (Relation.ReflTransGen.tail Relation.ReflTransGen.refl h1) h2
  · decide

/-- Claim C5 (amended): starting item playback while merged audio is playing
pauses the merged element and clears the merged-playback flag before the
item element's play() is applied (the play step only adds the item's element
flags on top of the already-paused state), and the `shouldStopPlaying`
effect pauses a playing item while merged audio is the active source; but an
item-to-item switch pauses nothing, so two item elements can play at once. -/
theorem C5_single_playback (s : PanelState) (i j : Nat) (hm : s.playingMerged = true) :
    (handleItemPlayStart i s).mergedElPlaying = false ∧
    (handleItemPlayStart i s).playingMerged = false ∧
    itemTogglePlaySuccess i s =
      { handleItemPlayStart i s with
          itemElPlaying := (handleItemPlayStart i s).itemElPlaying.set i true
          itemIsPlaying := (handleItemPlayStart i s).itemIsPlaying.set i true } ∧
    (s.playingSource = some PlaySource.merged → s.itemIsPlaying.getD j false = true →
      (shouldStopPlayingEffect j s).itemElPlaying.getD j false = false ∧
      (shouldStopPlayingEffect j s).itemIsPlaying.getD j false = false) := by
  refine ⟨?_, ?_, rfl, ?_⟩
  · simp [handleItemPlayStart, hm]
  · simp [handleItemPlayStart, hm]
  · intro hsrc hij
    unfold shouldStopPlayingEffect
    rw [if_pos ⟨⟨hsrc, hm⟩, hij⟩]
    exact ⟨getD_set_false _ _, getD_set_false _ _⟩

/-- Claim C5, witness: from a state with merged audio playing, starting
item 0 leaves the merged element paused. -/
theorem C5_single_playback_witness :
    mergedPlayingState.playingMerged = true ∧
    (handleItemPlayStart 0 mergedPlayingState).mergedElPlaying = false :=
  ⟨by decide, (C5_single_playback mergedPlayingState 0 0 (by decide)).1⟩

/-- Claim C8, counterexample: when merged playback fails to start while
item 0 is playing, the resulting state is neither unchanged nor Idle - the
`catch` only logs, so `playingItemIndex` stays cleared while the item's
element keeps playing and `playingSource` still says an item is active. -/
theorem C8_counterexample :
    toggleMergedPlayFail itemZeroPlayingState ≠ itemZeroPlayingState ∧
    ¬ IdleState (toggleMergedPlayFail itemZeroPlayingState) ∧
    (toggleMergedPlayFail itemZeroPlayingState).itemElPlaying.getD 0 false = true ∧
    (toggleMergedPlayFail itemZeroPlayingState).playingSource = some PlaySource.item ∧
    (toggleMergedPlayFail itemZeroPlayingState).playingItemIndex = none := by
  refine ⟨by decide, by decide, by decide, by decide, by decide⟩

/-- Claim C8 (amended): a failed merged-playback start from a fully idle
state leaves the state unchanged, and a failed item-playback start runs the
`onPlayEnd` cleanup - `playingItemIndex` and `charProgress` are cleared and
no element flag is touched; the error is only logged to the console. When
some playback was already active the failure path does not restore
`playingItemIndex` (see the counterexample). -/
theorem C8_playback_failure (s : PanelState) (i : Nat) (hIdle : IdleState s) :
    toggleMergedPlayFail s = s ∧
    (itemTogglePlayFail i s).playingItemIndex = none ∧
    (itemTogglePlayFail i s).charProgress = 0 ∧
    (itemTogglePlayFail i s).itemElPlaying = s.itemElPlaying ∧
    (itemTogglePlayFail i s).itemIsPlaying = s.itemIsPlaying ∧
    (itemTogglePlayFail i s).mergedElPlaying = s.mergedElPlaying := by
  obtain ⟨hpm, hps, hpi, hme, hcount⟩ := hIdle
  refine ⟨?_, ?_, ?_, ?_, ?_, ?_⟩
  · unfold toggleMergedPlayFail
    rw [← hpi]
  all_goals simp [itemTogglePlayFail, handleItemPlayEnd, handleItemPlayStart, hpm]

/-- Claim C8, witness: a merged-playback failure on the freshly mounted
panel changes nothing. -/
theorem C8_playback_failure_witness :
    IdleState (initPanelState 2 []) ∧
    toggleMergedPlayFail (initPanelState 2 []) = initPanelState 2 [] :=
  ⟨by decide, (C8_playback_failure (initPanelState 2 []) 0 (by decide)).1⟩

/-- Claim C9: a merged-element timeupdate tick changes only the displayed
current time whenever the active playing source is not the merged track -
the highlight index, the character progress and every other state component
are left untouched, so stale merged ticks never override item-driven
highlight state. -/
theorem C9_stale_tick (s : PanelState) (t : ℚ)
    (h : s.playingSource ≠ some PlaySource.merged) :
    handleMergedTimeUpdate t s = { s with currentTime := t } := by
  simp [handleMergedTimeUpdate, h]

/-- Claim C9, witness: while item 0 is the playing source, a merged tick at
t = 7 only updates the displayed time. -/
theorem C9_stale_tick_witness :
    itemZeroPlayingState.playingSource ≠ some PlaySource.merged ∧
    handleMergedTimeUpdate 7 itemZeroPlayingState =
      { itemZeroPlayingState with currentTime := 7 } :=
  ⟨by decide, C9_stale_tick itemZeroPlayingState 7 (by decide)⟩

/-- Claim C6, counterexample: when metadata loads reporting a duration of 0,
the prober records the 2-second default (`audio.duration || 2`), not the
reported duration. -/
theorem C6_counterexample :
    getDurationForUrl [ProbeEvent.loadedMetadata 0] = 2 ∧ (2 : ℚ) ≠ 0 := by
  constructor
  · norm_num [getDurationForUrl, runSettle, settleValue]
  · norm_num

/-- Claim C6 (amended): for each probed URL the recorded value is the
reported metadata duration when metadata loads first with a nonzero (truthy)
duration, and exactly 2 seconds on error, timeout, abort or fetch failure (a
zero reported duration also falls back to 2); only the first settle event
counts; and an uncancelled batch emits, once, a list with the same length
and order as the input URL list. -/
theorem C6_duration_prober (d : ℚ) (rest : List ProbeEvent)
    (evss : List (List ProbeEvent)) (hd : d ≠ 0) :
    getDurationForUrl (ProbeEvent.loadedMetadata d :: rest) = d ∧
    getDurationForUrl (ProbeEvent.mediaError :: rest) = 2 ∧
    getDurationForUrl (ProbeEvent.abortSignal :: rest) = 2 ∧
    getDurationForUrl (ProbeEvent.timeout8s :: rest) = 2 ∧
    getDurationForUrl (ProbeEvent.fetchError :: rest) = 2 ∧
    probeLoop evss none = some (evss.map getDurationForUrl) ∧
    (evss.map getDurationForUrl).length = evss.length := by
  refine ⟨?_, ?_, ?_, ?_, ?_, ?_, List.length_map _ _⟩
  · rw [getDurationForUrl_first]
    simp [settleValue, hd]
  · simp [getDurationForUrl_first, settleValue]
  · simp [getDurationForUrl_first, settleValue]
  · simp [getDurationForUrl_first, settleValue]
  · simp [getDurationForUrl_first, settleValue]
  · simp [probeLoop, probeLoopAux_none]

/-- Claim C6, witness: a probe whose metadata loads first reporting 3
seconds records 3, even though an error event follows. -/
theorem C6_duration_prober_witness :
    (3 : ℚ) ≠ 0 ∧
    getDurationForUrl [ProbeEvent.loadedMetadata 3, ProbeEvent.mediaError] = 3 :=
  ⟨by norm_num, (C6_duration_prober 3 [ProbeEvent.mediaError] [] (by norm_num)).1⟩

/-- Claim C7: evaluation at the failing schedule. When the authenticated
blob fetch succeeds only after the probe has settled (for example the
8-second timer fired while the fetch was still in flight), the object URL is
created but never revoked - a leak, against the claimed release-exactly-once
guarantee - while a fetch resolving before settling is created and revoked
exactly once, and a cancelled batch applies no duration update. -/
theorem C7_object_url_leak :
    getDurationObjectUrls true true false = ⟨1, 0⟩ ∧
    getDurationObjectUrls true true true = ⟨1, 1⟩ ∧
    probeLoop [[ProbeEvent.timeout8s]] (some 0) = none := by
  refine ⟨rfl, rfl, rfl⟩

end TTSAgent
